import Mathlib

/-!
Verification of the bolero generator core (src/bolero-generator/src/num.rs).

The Rust code is macro-generated, one instance per primitive integer
type.  We embed it once, parameterized over the integer domain
(an `IntTy` holding the domain minimum and maximum), with machine values
represented as `Int` constrained to the domain.  Panicking operations
(remainder by zero, checked arithmetic overflow under debug semantics,
the give-up branch of the NonZero retry loop) are modelled with
`Except PanicKind`.  The remainder operator on signed Rust integers
truncates toward zero, which is `Int.tmod`.
-/

namespace Bolero

/-- `core::ops::Bound<T>`, with the payload as a domain integer. -/
inductive Bound where
  | included (v : Int)
  | excluded (v : Int)
  | unbounded
deriving DecidableEq, Repr

/-- A primitive integer domain: its minimum and maximum value. -/
structure IntTy where
  min : Int
  max : Int
deriving DecidableEq, Repr

def u8Ty : IntTy := ⟨0, 255⟩
def i8Ty : IntTy := ⟨-128, 127⟩
def u16Ty : IntTy := ⟨0, 65535⟩
def i16Ty : IntTy := ⟨-32768, 32767⟩
def u32Ty : IntTy := ⟨0, 4294967295⟩
def i32Ty : IntTy := ⟨-2147483648, 2147483647⟩
def u64Ty : IntTy := ⟨0, 18446744073709551615⟩
def i64Ty : IntTy := ⟨-9223372036854775808, 9223372036854775807⟩

/-- `x` is a representable value of the domain `t`. -/
def IntTy.isValid (t : IntTy) (x : Int) : Prop := t.min ≤ x ∧ x ≤ t.max

instance (t : IntTy) (x : Int) : Decidable (t.isValid x) :=
  inferInstanceAs (Decidable (_ ∧ _))

/-- Rust `saturating_add`: clamp the exact sum into the domain. -/
def satAdd (t : IntTy) (x y : Int) : Int := max t.min (min t.max (x + y))

/-- Rust `saturating_sub`: clamp the exact difference into the domain. -/
def satSub (t : IntTy) (x y : Int) : Int := max t.min (min t.max (x - y))

/-- Rust `wrapping_add`: the exact sum reduced into the domain modulo its width. -/
def wrappingAdd (t : IntTy) (x y : Int) : Int :=
  (x + y - t.min) % (t.max - t.min + 1) + t.min

/-- Resolution of the `start` bound in `BoundedValue::bounded`
(num.rs lines 14-18): `Included(value) => value`,
`Excluded(value) => value.saturating_add(1)`, `Unbounded => MIN`. -/
def resolveStart (t : IntTy) : Bound → Int
  | .included v => v
  | .excluded v => satAdd t v 1
  | .unbounded => t.min

/-- Resolution of the `end` bound in `BoundedValue::bounded`
(num.rs lines 20-24): `Included(value) => value`,
`Excluded(value) => value.saturating_sub(1)`, `Unbounded => MAX`. -/
def resolveEnd (t : IntTy) : Bound → Int
  | .included v => v
  | .excluded v => satSub t v 1
  | .unbounded => t.max

instance {ε α : Type} [DecidableEq ε] [DecidableEq α] : DecidableEq (Except ε α)
  | .ok a, .ok b =>
    if h : a = b then .isTrue (by rw [h]) else .isFalse (by simp [h])
  | .ok _, .error _ => .isFalse (by simp)
  | .error _, .ok _ => .isFalse (by simp)
  | .error a, .error b =>
    if h : a = b then .isTrue (by rw [h]) else .isFalse (by simp [h])

/-- The ways the embedded code can panic. -/
inductive PanicKind where
  | divByZero
  | overflow
  | unsatisfiableBound
deriving DecidableEq, Repr

/-- `BoundedValue::bounded` from `impl_bounded_integer` (num.rs lines
11-35): resolve both bounds, normalize so `lower <= upper` by swapping,
then `range = upper - lower` (checked subtraction, debug semantics) and
`(self % range) + lower` (remainder panics on a zero modulus; the final
addition is again checked).  Rust `%` on signed integers is `Int.tmod`. -/
def bounded (t : IntTy) (self : Int) (start stop : Bound) : Except PanicKind Int :=
  let s := resolveStart t start
  let e := resolveEnd t stop
  let lower := if s < e then s else e
  let upper := if s < e then e else s
  if t.min ≤ upper - lower ∧ upper - lower ≤ t.max then
    if upper - lower = 0 then .error .divByZero
    else
      let r := Int.tmod self (upper - lower)
      if t.min ≤ r + lower ∧ r + lower ≤ t.max then .ok (r + lower)
      else .error .overflow
  else .error .overflow

/-- The retry loop of `BoundedValue::bounded` from `impl_non_zero_integer`
(num.rs lines 181-193), with the remaining attempt count as fuel: compute
`inner.bounded(start, end)` on the raw domain, return the first result
accepted by `NonZero::new` (that is, the first non-zero result), otherwise
advance `inner` by `wrapping_add(1)` and retry; when the attempts run out
the code gives up with a diagnostic.  A panic inside the raw `bounded`
call propagates. -/
def nzLoop (t : IntTy) (start stop : Bound) : Nat → Int → Except PanicKind Int
  | 0, _ => .error .unsatisfiableBound
  | n + 1, inner =>
    match bounded t inner start stop with
    | .error k => .error k
    | .ok v => if v = 0 then nzLoop t start stop n (wrappingAdd t inner 1) else .ok v

/-- `BoundedValue::bounded` from `impl_non_zero_integer` (num.rs lines
164-194): the `NonZero` bounds are unwrapped to raw bounds with `.get()`
(the identity on the embedded payload), then the retry loop runs for the
four attempts of `for _ in 0..=3`, starting from the raw value `self.get()`. -/
def nzBounded (t : IntTy) (self : Int) (start stop : Bound) : Except PanicKind Int :=
  nzLoop t start stop 4 self

/-- `Rng::fill_bytes` into a zero-initialized buffer of `n` bytes, with a
byte stream as the entropy source: delivers the next `n` bytes of the
stream, zero-filled once the stream is exhausted. -/
def fillBytes (n : Nat) (s : List Nat) : List Nat :=
  s.take n ++ List.replicate (n - s.length) 0

/-- `TypeGenerator::generate` for `u8` from `impl_byte` (num.rs lines
50-56): fill a 1-byte buffer and take `bytes[0]`. -/
def generateU8 (s : List Nat) : Int := ((fillBytes 1 s).headD 0 : Nat)

/-- `TypeGenerator::generate` for `i8` from `impl_byte`: fill a 1-byte
buffer and reinterpret `bytes[0] as i8` (two-complement). -/
def generateI8 (s : List Nat) : Int :=
  let b := (fillBytes 1 s).headD 0
  if b < 128 then (b : Int) else (b : Int) - 256

/-- Little-endian read of a byte list as an unsigned integer, the
`NativeEndian::read_u32` of the byteorder crate pinned to the
little-endian order of the reference platform. -/
def readLE : List Nat → Nat
  | [] => 0
  | b :: rest => b % 256 + 256 * readLE rest

/-- `TypeGenerator::generate` for `u32` from `impl_integer` (num.rs lines
75-81): fill a 4-byte buffer and decode it with `NativeEndian::read_u32`. -/
def generateU32 (s : List Nat) : Int := (readLE (fillBytes 4 s) : Nat)

/-- Modelled from the spec:  the `BoundedGenerator` produced by a
`RangeFrom` range (`start..`) is missing from the visible sources
(`bounded.rs` is not in the slice); per spec §2 and §4.3 the
`BoundedGenerator` decorates the base `TypeGenerator` with the range
constraint by applying the bounded-value algorithm, here with bounds
`Included(start)` and `Unbounded`, to the raw generated value `x`. -/
def rangeFromFold (t : IntTy) (lo x : Int) : Except PanicKind Int :=
  bounded t x (.included lo) .unbounded

/-- `TypeGenerator::generate` from `impl_non_zero_integer` (num.rs lines
157-160): the raw value is drawn with `(1..).generate(rng)` — the
`rangeFromFold` with lower endpoint 1 applied to the raw decoded value —
and the result is wrapped with `new_unchecked`, without any check. -/
def nzGenerate (t : IntTy) (x : Int) : Except PanicKind Int := rangeFromFold t 1 x

/-- `TypeGeneratorWithParams::gen_with` from `impl_bounded_integer`
(num.rs lines 41-43): `BoundedGenerator::new(Default::default(), $ty::default()..)`.
`$ty::default()` is 0 for every primitive integer type, so the generator
folds the raw decoded value into the range `0..`, with lower bound
`Included(0)`. -/
def genWithValue (t : IntTy) (x : Int) : Except PanicKind Int := rangeFromFold t 0 x

lemma tmod_nonneg_lt {x m : Int} (hx : 0 ≤ x) (hm : 0 < m) :
    0 ≤ Int.tmod x m ∧ Int.tmod x m < m := by
  rw [Int.tmod_eq_emod hx hm.le]
  exact ⟨Int.emod_nonneg x hm.ne', Int.emod_lt_of_pos x hm⟩

/-- Core lemma for the normalized fold: when the raw value is nonnegative
and the resolved endpoints are distinct, nonnegative and below the domain
maximum, no checked operation panics and the result lands in the
half-open normalized interval. -/
lemma bounded_ok_of_nonneg (t : IntTy) (x : Int) (s e : Bound)
    (hmin : t.min ≤ 0) (hx : 0 ≤ x)
    (hlo : 0 ≤ min (resolveStart t s) (resolveEnd t e))
    (hhi : max (resolveStart t s) (resolveEnd t e) ≤ t.max)
    (hne : resolveStart t s ≠ resolveEnd t e) :
    ∃ r, bounded t x s e = .ok r ∧
      min (resolveStart t s) (resolveEnd t e) ≤ r ∧
      r < max (resolveStart t s) (resolveEnd t e) := by
  rcases lt_or_gt_of_ne hne with hab | hab
  · have hr := tmod_nonneg_lt hx
      (show 0 < resolveEnd t e - resolveStart t s by omega)
    simp only [bounded, if_pos hab]
    split_ifs with h1 h2 h3
    · exact absurd h2 (by omega)
    · exact ⟨_, rfl, by omega, by omega⟩
    · exact absurd (show t.min ≤ Int.tmod x (resolveEnd t e - resolveStart t s) +
        resolveStart t s ∧ Int.tmod x (resolveEnd t e - resolveStart t s) +
        resolveStart t s ≤ t.max by omega) h3
    · exact absurd (show t.min ≤ resolveEnd t e - resolveStart t s ∧
        resolveEnd t e - resolveStart t s ≤ t.max by omega) h1
  · have hnlt : ¬ (resolveStart t s < resolveEnd t e) := by omega
    have hr := tmod_nonneg_lt hx
      (show 0 < resolveStart t s - resolveEnd t e by omega)
    simp only [bounded, if_neg hnlt]
    split_ifs with h1 h2 h3
    · exact absurd h2 (by omega)
    · exact ⟨_, rfl, by omega, by omega⟩
    · exact absurd (show t.min ≤ Int.tmod x (resolveStart t s - resolveEnd t e) +
        resolveEnd t e ∧ Int.tmod x (resolveStart t s - resolveEnd t e) +
        resolveEnd t e ≤ t.max by omega) h3
    · exact absurd (show t.min ≤ resolveStart t s - resolveEnd t e ∧
        resolveStart t s - resolveEnd t e ≤ t.max by omega) h1

/-- C1, counterexample: the claim fails on signed types.  For `i8` with
`x = -5` and the bounds `Included(0)`, `Included(10)` — a normalized
interval with `lo ≤ hi` and a representable `x` — `bounded` returns `-5`,
which does not lie in `[0, 10]`: the Rust remainder keeps the sign of the
dividend, so a negative raw value escapes below the lower endpoint. -/
theorem bounded_signed_escapes_included_range :
    i8Ty.isValid (-5) ∧ (0 : Int) ≤ 10 ∧
    bounded i8Ty (-5) (.included 0) (.included 10) = .ok (-5) ∧
    ¬ ((0 : Int) ≤ -5 ∧ (-5 : Int) ≤ 10) := by
  refine ⟨by decide, by decide, by decide, by decide⟩

/-- C1, amended: for every UNSIGNED primitive integer type and bounds
`Included(lo)`, `Included(hi)` with `0 ≤ lo < hi ≤ MAX` (strictly, since
at `lo = hi` the call panics with a division by zero), the result of
`x.bounded(Included(lo), Included(hi))` lies in `[lo, hi]` for every
representable `x`. -/
theorem bounded_unsigned_included_in_range (t : IntTy) (x lo hi : Int)
    (hmin : t.min = 0) (hx : 0 ≤ x) (hxm : x ≤ t.max)
    (hlo : 0 ≤ lo) (hlt : lo < hi) (hhi : hi ≤ t.max) :
    ∃ r, bounded t x (.included lo) (.included hi) = .ok r ∧ lo ≤ r ∧ r ≤ hi := by
  have h := bounded_ok_of_nonneg t x (.included lo) (.included hi)
    (by omega) hx
    (by simp only [resolveStart, resolveEnd]; omega)
    (by simp only [resolveStart, resolveEnd]; omega)
    (by simp only [resolveStart, resolveEnd]; omega)
  simp only [resolveStart, resolveEnd] at h
  obtain ⟨r, hok, h1, h2⟩ := h
  exact ⟨r, hok, by omega, by omega⟩

/-- C1, witness. -/
theorem bounded_unsigned_included_in_range_witness :
    ∃ r, bounded u8Ty 250 (.included 10) (.included 20) = .ok r ∧ 10 ≤ r ∧ r ≤ 20 :=
  bounded_unsigned_included_in_range u8Ty 250 10 20 (by decide) (by decide)
    (by decide) (by decide) (by decide) (by decide)

/-- C2, counterexample, two constructible failures of the claim.
First conjunct: `NonZeroU8` bounds that allow a valid non-zero in-range
value on which the retry loop still gives up.  The NonZero-level bound
payloads must themselves be non-zero, so the raw lower endpoint 0 is
reached with a start bound of `Unbounded` (which resolves to the domain
minimum 0); `self = 7` is a representable `NonZeroU8`.  With start
`Unbounded` and end `Included(1)` the resolved raw interval is `[0, 1]`,
which allows the valid value `1` (in range and non-zero), yet every
attempt computes `(inner % 1) + 0 = 0`, so after the four attempts the
call aborts.  Second conjunct: `NonZeroI8` with `self = -5` and bounds
`Included(1)`, `Included(10)` (payloads `1`, `10` and `-5` all non-zero,
hence representable NonZero values) silently returns
`(-5 % 9) + 1 = -4`, a non-zero value outside the requested `[1, 10]`. -/
theorem nzBounded_violates_refinement_contract :
    (nzBounded u8Ty 7 .unbounded (.included 1) = .error .unsatisfiableBound ∧
      resolveStart u8Ty .unbounded = 0 ∧ resolveEnd u8Ty (.included 1) = 1 ∧
      u8Ty.isValid 1 ∧ (0 : Int) ≤ 1 ∧ (1 : Int) ≤ 1 ∧ (1 : Int) ≠ 0) ∧
    (nzBounded i8Ty (-5) (.included 1) (.included 10) = .ok (-4) ∧
      (-4 : Int) ≠ 0 ∧ ¬ ((1 : Int) ≤ -4 ∧ (-4 : Int) ≤ 10)) := by
  refine ⟨⟨by decide, by decide, by decide, by decide, by decide, by decide, by decide⟩,
    ⟨by decide, by decide, by decide⟩⟩

/-- C2, amended: for every NonZero refinement type, `bounded` never
returns zero: each of the four attempts recomputes the raw bounded
value, returning the first non-zero result and otherwise incrementing
the raw value by one (wrapping); when every attempt yields zero the call
aborts with a diagnostic naming the offending type (the diagnostic does
not name the bound).  Bounds allowing a valid value are NOT guaranteed
to succeed (first conjunct of the counterexample), and on signed domains
a non-zero result may silently lie outside the requested range (second
conjunct of the counterexample). -/
theorem nzBounded_never_returns_zero (t : IntTy) (x : Int) (s e : Bound) (r : Int)
    (h : nzBounded t x s e = .ok r) : r ≠ 0 := by
  have key : ∀ (fuel : Nat) (inner q : Int),
      nzLoop t s e fuel inner = .ok q → q ≠ 0 := by
    intro fuel
    induction fuel with
    | zero => intro inner q hq; simp [nzLoop] at hq
    | succ n ih =>
      intro inner q hq
      simp only [nzLoop] at hq
      split at hq
      · simp at hq
      · split at hq
        · exact ih _ _ hq
        · next hv => injection hq with h2; exact h2 ▸ hv
  exact key 4 x r h

/-- C2, witness. -/
theorem nzBounded_never_returns_zero_witness :
    nzBounded u8Ty 7 (.included 1) (.included 3) = .ok 2 ∧ (2 : Int) ≠ 0 :=
  ⟨by decide, nzBounded_never_returns_zero u8Ty 7 (.included 1) (.included 3) 2 (by decide)⟩

/-- C3: when both bounds resolve to the same endpoint (for example
`Included(v)` and `Included(v)`), the normalized interval is degenerate,
`range = upper - lower = 0`, and the unguarded `self % range` is evaluated
with a zero modulus, so the call panics with a division by zero instead of
returning the endpoint.  (The hypothesis that the domain contains 0 holds
for every primitive integer type and makes the checked subtraction
`upper - lower = 0` pass, reaching the remainder.) -/
theorem bounded_equal_endpoints_div_by_zero (t : IntTy) (x : Int) (s e : Bound)
    (hz : t.min ≤ 0 ∧ 0 ≤ t.max)
    (heq : resolveStart t s = resolveEnd t e) :
    bounded t x s e = .error .divByZero := by
  obtain ⟨hz1, hz2⟩ := hz
  simp only [bounded]
  rw [heq, if_neg (lt_irrefl _), sub_self, if_pos ⟨hz1, hz2⟩, if_pos rfl]

/-- C3, witness. -/
theorem bounded_equal_endpoints_div_by_zero_witness :
    bounded u8Ty 7 (.included 5) (.included 5) = .error .divByZero :=
  bounded_equal_endpoints_div_by_zero u8Ty 7 (.included 5) (.included 5)
    ⟨by decide, by decide⟩ (by decide)

/-- C4, counterexample: the claim fails on signed NonZero types.  The
`i8` raw decode of the byte `0xFF` is `-1`, and the default `NonZeroI8`
generator folds it through `bounded` with bounds `Included(1)`,
`Unbounded`: `range = 127 - 1 = 126`, `(-1 % 126) + 1 = 0`, so
`new_unchecked` receives `0` and the generated value violates the
non-zero invariant. -/
theorem nzGenerate_signed_yields_zero :
    nzGenerate i8Ty (-1) = .ok 0 ∧ i8Ty.isValid (-1) := by
  refine ⟨by decide, by decide⟩

/-- C4, amended: for every UNSIGNED NonZero refinement type (raw values
nonnegative), the default generator draws the raw value through the range
starting at 1, so the result lies in `[1, domain-max]` and always
satisfies the non-zero invariant; in particular a `NonZeroU8` generator
given raw bytes decoding to 0 returns 1 and never 0.  For signed NonZero
types a negative raw value can fold to zero (see the counterexample). -/
theorem nzGenerate_unsigned_nonzero (t : IntTy) (x : Int)
    (hmin : t.min = 0) (hmax : 1 < t.max) (hx : 0 ≤ x) :
    (∃ r, nzGenerate t x = .ok r ∧ 1 ≤ r ∧ r ≤ t.max ∧ r ≠ 0) ∧
    nzGenerate u8Ty 0 = .ok 1 := by
  refine ⟨?_, by decide⟩
  have h := bounded_ok_of_nonneg t x (.included 1) .unbounded
    (by omega) hx
    (by simp only [resolveStart, resolveEnd]; omega)
    (by simp only [resolveStart, resolveEnd]; omega)
    (by simp only [resolveStart, resolveEnd]; omega)
  simp only [resolveStart, resolveEnd] at h
  obtain ⟨r, hok, h1, h2⟩ := h
  exact ⟨r, hok, by omega, by omega, by omega⟩

/-- C4, witness. -/
theorem nzGenerate_unsigned_nonzero_witness :
    (∃ r, nzGenerate u8Ty 0 = .ok r ∧ 1 ≤ r ∧ r ≤ u8Ty.max ∧ r ≠ 0) ∧
    nzGenerate u8Ty 0 = .ok 1 :=
  nzGenerate_unsigned_nonzero u8Ty 0 (by decide) (by decide) (by decide)

/-- C5, counterexample: the claim fails on signed types.  For `i8` with
`x = -5` and the bounds given as `(Included(10), Included(0))` — resolved
start 10 greater than resolved end 0 — the pair is swapped to `[0, 10]`,
but the result `(-5 % 10) + 0 = -5` does not lie in
`[min(10,0), max(10,0)] = [0, 10]`. -/
theorem bounded_swapped_signed_escape :
    i8Ty.isValid (-5) ∧
    bounded i8Ty (-5) (.included 10) (.included 0) = .ok (-5) ∧
    ¬ ((0 : Int) ≤ -5 ∧ (-5 : Int) ≤ 10) := by
  refine ⟨by decide, by decide, by decide⟩

/-- C5, amended: for every UNSIGNED primitive integer type and bounds
given as `(Included(a), Included(b))` whose resolved values satisfy
`a > b` (with `0 ≤ b` and `a ≤ MAX`), `bounded` swaps the pair internally
rather than rejecting it, and the result lies in
`[min(a,b), max(a,b)] = [b, a]` for every representable `x`. -/
theorem bounded_unsigned_swapped_in_range (t : IntTy) (x a b : Int)
    (hmin : t.min = 0) (hx : 0 ≤ x) (hxm : x ≤ t.max)
    (hb : 0 ≤ b) (hgt : b < a) (ha : a ≤ t.max) :
    ∃ r, bounded t x (.included a) (.included b) = .ok r ∧ b ≤ r ∧ r ≤ a := by
  have h := bounded_ok_of_nonneg t x (.included a) (.included b)
    (by omega) hx
    (by simp only [resolveStart, resolveEnd]; omega)
    (by simp only [resolveStart, resolveEnd]; omega)
    (by simp only [resolveStart, resolveEnd]; omega)
  simp only [resolveStart, resolveEnd] at h
  obtain ⟨r, hok, h1, h2⟩ := h
  exact ⟨r, hok, by omega, by omega⟩

/-- C5, witness. -/
theorem bounded_unsigned_swapped_in_range_witness :
    ∃ r, bounded u8Ty 250 (.included 20) (.included 10) = .ok r ∧ 10 ≤ r ∧ r ≤ 20 :=
  bounded_unsigned_swapped_in_range u8Ty 250 20 10 (by decide) (by decide)
    (by decide) (by decide) (by decide) (by decide)

/-- C6: there exist resolved signed bounds with `lower < upper` for which
the subtraction `upper - lower` overflows the type, so `bounded` panics
with an arithmetic overflow (debug semantics) instead of returning an
in-range value: for `i8` with `Included(-100)` and `Included(100)` the
range `100 - (-100) = 200` exceeds `i8::MAX = 127`. -/
theorem bounded_signed_range_overflow :
    resolveStart i8Ty (.included (-100)) < resolveEnd i8Ty (.included 100) ∧
    bounded i8Ty 0 (.included (-100)) (.included 100) = .error .overflow := by
  refine ⟨by decide, by decide⟩

/-- C7: bound resolution maps `Included(v)` to `v`; maps `Excluded(v)` to
`v.saturating_add(1)` for the start bound and `v.saturating_sub(1)` for
the end bound — equal to `v + 1` and `v - 1` clamped at the domain edge,
hence never wrapping past it (the resolved value stays representable);
and maps `Unbounded` to the domain minimum for the start bound and the
domain maximum for the end bound. -/
theorem resolve_bound_spec (t : IntTy) (v : Int) (hv : t.isValid v) :
    resolveStart t (.included v) = v ∧
    resolveStart t (.excluded v) = min (v + 1) t.max ∧
    t.isValid (resolveStart t (.excluded v)) ∧
    resolveStart t .unbounded = t.min ∧
    resolveEnd t (.included v) = v ∧
    resolveEnd t (.excluded v) = max (v - 1) t.min ∧
    t.isValid (resolveEnd t (.excluded v)) ∧
    resolveEnd t .unbounded = t.max := by
  obtain ⟨h1, h2⟩ := hv
  refine ⟨rfl, ?_, ?_, rfl, rfl, ?_, ?_, rfl⟩ <;>
    simp only [resolveStart, resolveEnd, satAdd, satSub, IntTy.isValid] <;> omega

/-- C7, witness. -/
theorem resolve_bound_spec_witness :
    resolveStart u8Ty (.included 5) = 5 ∧
    resolveStart u8Ty (.excluded 5) = min (5 + 1) u8Ty.max ∧
    u8Ty.isValid (resolveStart u8Ty (.excluded 5)) ∧
    resolveStart u8Ty .unbounded = u8Ty.min ∧
    resolveEnd u8Ty (.included 5) = 5 ∧
    resolveEnd u8Ty (.excluded 5) = max (5 - 1) u8Ty.min ∧
    u8Ty.isValid (resolveEnd u8Ty (.excluded 5)) ∧
    resolveEnd u8Ty .unbounded = u8Ty.max :=
  resolve_bound_spec u8Ty 5 (by decide)

/-- C8: `bounded` applied to `x = 250u8` with bounds `Included(10)` and
`Included(20)` computes `range = 10` and returns `(250 mod 10) + 10 = 10`. -/
theorem bounded_u8_example :
    resolveEnd u8Ty (.included 20) - resolveStart u8Ty (.included 10) = 10 ∧
    Int.tmod 250 10 + 10 = 10 ∧
    bounded u8Ty 250 (.included 10) (.included 20) = .ok 10 := by
  refine ⟨by decide, by decide, by decide⟩

/-- C9: decoding is deterministic — the decoded value is a function of
exactly the bytes delivered by `fill_bytes`: two byte streams on which
the fills of the decoded width agree (in particular, the identical byte
sequence replayed twice) decode to bit-identical values, for the 1-byte
decoders of `impl_byte` and the multi-byte decoder of `impl_integer`. -/
theorem generate_deterministic (s1 s2 : List Nat)
    (h1 : fillBytes 1 s1 = fillBytes 1 s2)
    (h4 : fillBytes 4 s1 = fillBytes 4 s2) :
    generateU8 s1 = generateU8 s2 ∧ generateI8 s1 = generateI8 s2 ∧
    generateU32 s1 = generateU32 s2 := by
  refine ⟨?_, ?_, ?_⟩ <;> simp only [generateU8, generateI8, generateU32, h1, h4]

/-- C9, witness. -/
theorem generate_deterministic_witness :
    generateU8 [3, 0, 0, 0, 7] = generateU8 [3, 0, 0, 0, 9] ∧
    generateI8 [3, 0, 0, 0, 7] = generateI8 [3, 0, 0, 0, 9] ∧
    generateU32 [3, 0, 0, 0, 7] = generateU32 [3, 0, 0, 0, 9] :=
  generate_deterministic [3, 0, 0, 0, 7] [3, 0, 0, 0, 9] (by decide) (by decide)

/-- C10, counterexample: the claim fails for signed types.  `gen_with`
for `i8` folds the raw decoded value through bounds `Included(0)`,
`Unbounded`, but the raw value `-5` produces `(-5 % 127) + 0 = -5`: the
default parameterized generator CAN produce a negative value, because the
signed remainder keeps the sign of the dividend. -/
theorem genWith_signed_negative :
    genWithValue i8Ty (-5) = .ok (-5) ∧ i8Ty.isValid (-5) ∧ (-5 : Int) < 0 := by
  refine ⟨by decide, by decide, by decide⟩

/-- C10, amended: `gen_with()` constructs a `BoundedGenerator` over the
range `default()..`, whose lower bound is `Included(0)`; for NONNEGATIVE
raw values the generated value is nonnegative (below the domain maximum),
but for signed types a negative raw value still yields a negative output,
so the default parameterized generator is not negative-free. -/
theorem genWith_nonneg_of_nonneg_raw (t : IntTy) (x : Int)
    (hmin : t.min ≤ 0) (hmax : 0 < t.max) (hx : 0 ≤ x) :
    ∃ r, genWithValue t x = .ok r ∧ 0 ≤ r ∧ r < t.max := by
  have h := bounded_ok_of_nonneg t x (.included 0) .unbounded
    hmin hx
    (by simp only [resolveStart, resolveEnd]; omega)
    (by simp only [resolveStart, resolveEnd]; omega)
    (by simp only [resolveStart, resolveEnd]; omega)
  simp only [resolveStart, resolveEnd] at h
  obtain ⟨r, hok, h1, h2⟩ := h
  exact ⟨r, hok, by omega, by omega⟩

/-- C10, witness. -/
theorem genWith_nonneg_of_nonneg_raw_witness :
    ∃ r, genWithValue i8Ty 5 = .ok r ∧ 0 ≤ r ∧ r < i8Ty.max :=
  genWith_nonneg_of_nonneg_raw i8Ty 5 (by decide) (by decide) (by decide)

end Bolero
